import Mathlib

/-!
Verification of the endpoint-discovery and resilient-polling subsystem of the
AntigravityQuotaMonitor extension, as a shallow embedding in Lean 4.

The embedded functions mirror, statement by statement:
  * `src/services/api/AntigravityClient.ts` (the polling client, response
    validation, model-quota parsing, and the `makeRequest` TLS-then-HTTP
    fallback);
  * `src/services/discovery/process/UnixProcessDetector.ts` (process-record
    and listening-port parsing);
  * `out/services/discovery/process/ProcessPortDetector.js` (the detection
    retry loop with the Windows tool switch, and the Windows port parser).

JavaScript strings are modelled as `List Char` where character-level regex
matching is needed; JS numbers appearing as counters/ports are `Nat`, epoch
milliseconds are `Int`, and quota fractions are `ℚ`.  Fallible operations
return `Option`/`Except`.  Timers (`setInterval`/`setTimeout`) are modelled
by explicit state flags plus step functions invoked by the environment.
-/

set_option maxRecDepth 16384

namespace AQM

/-! ## Generic string helpers (JS `includes`, `trim`, `split`, `toLowerCase`) -/

/-- JS `String.prototype.includes`: `hasSub needle hay` is true iff `needle`
occurs contiguously in `hay`. -/
def hasSub (needle : List Char) : List Char → Bool
  | [] => needle.isEmpty
  | c :: t => needle.isPrefixOf (c :: t) || hasSub needle t

/-- JS `toLowerCase`, character by character. -/
def lcList (l : List Char) : List Char := l.map Char.toLower

/-- JS `String.prototype.trim`: drop whitespace from both ends. -/
def trimList (l : List Char) : List Char :=
  ((l.dropWhile Char.isWhitespace).reverse.dropWhile Char.isWhitespace).reverse

/-- Split a character list at every occurrence of the separator character
(JS `split("\n")`-style: separators delimit chunks, empty chunks kept). -/
def splitOnChar (sep : Char) : List Char → List (List Char)
  | [] => [[]]
  | c :: t =>
    let rest := splitOnChar sep t
    if c = sep then [] :: rest
    else match rest with
      | [] => [[c]]
      | r :: rs => (c :: r) :: rs

/-- JS `split(/\s+/)` on an already-trimmed string: whitespace-run separated
words, empty chunks dropped. -/
def wordsOf (l : List Char) : List (List Char) :=
  (List.splitOnP Char.isWhitespace l).filter (fun w => ¬ w.isEmpty)

/-- Maximal run of characters satisfying `p` (at least one), with remainder:
the semantics of a greedy regex character class `[...]+`. -/
def takeClass1 (p : Char → Bool) (l : List Char) : Option (List Char × List Char) :=
  match l.span p with
  | ([], _) => none
  | (tk, rest) => some (tk, rest)

/-- Match a literal prefix, returning the remainder. -/
def dropLit (lit : List Char) (l : List Char) : Option (List Char) :=
  if lit.isPrefixOf l then some (l.drop lit.length) else none

/-- Match a literal prefix case-insensitively (the literal is given in lower
case), returning the remainder. -/
def dropLitCI (lit : List Char) (l : List Char) : Option (List Char) :=
  if lit.length ≤ l.length ∧ lcList (l.take lit.length) = lit then
    some (l.drop lit.length)
  else none

/-- Leftmost-match search: try the position matcher `f` at every suffix, in
order, returning the first success — the search behaviour of an unanchored
JS regex. -/
def scanFirst (f : List Char → Option α) : List Char → Option α
  | [] => f []
  | c :: t =>
    match f (c :: t) with
    | some x => some x
    | none => scanFirst f t

/-- Digit run to a natural number. -/
def digitsToNat (ds : List Char) : Nat :=
  ds.foldl (fun n c => n * 10 + (c.toNat - '0'.toNat)) 0

/-- JS `parseInt(s, 10)` restricted to what the process parser feeds it: an
optional sign followed by leading digits; `none` is `NaN`. -/
def parseIntJs (l : List Char) : Option Int :=
  match l with
  | '-' :: t => (takeClass1 Char.isDigit t).map (fun p => -(Int.ofNat (digitsToNat p.1)))
  | '+' :: t => (takeClass1 Char.isDigit t).map (fun p => Int.ofNat (digitsToNat p.1))
  | _ => (takeClass1 Char.isDigit l).map (fun p => Int.ofNat (digitsToNat p.1))

/-! ## JS values and `AntigravityClient.getInvalidCodeInfo` -/

/-- The JavaScript values that can appear in the application-level `code`
field of a response. -/
inductive JsVal where
  | num (n : Int)
  | str (s : String)
  | undef
  | nullv
deriving DecidableEq, Repr

namespace AntigravityClient

/-- The OK whitelist exactly as written in `getInvalidCodeInfo`
(`AntigravityClient.ts` line 308):
`[0, "0", "OK", "Ok", "ok", "success", "SUCCESS"]`. -/
def okValues : List JsVal :=
  [.num 0, .str "0", .str "OK", .str "Ok", .str "ok", .str "success", .str "SUCCESS"]

/-- Function `AntigravityClient.getInvalidCodeInfo`: `code` absent (`undefined` or
`null`) is treated as OK; a whitelisted code is OK; anything else is returned
as an error pair `(code, message)`. -/
def getInvalidCodeInfo (code : JsVal) (message : Option String) :
    Option (JsVal × Option String) :=
  if code = .undef ∨ code = .nullv then none
  else if code ∈ okValues then none
  else some (code, message)

end AntigravityClient

/-- Modelled from the spec: the whitelist the spec sentence enumerates —
"(0, \"0\", \"OK\", \"ok\", \"success\", \"SUCCESS\")" — for comparison with
the whitelist in the source. -/
def specOkValues : List JsVal :=
  [.num 0, .str "0", .str "OK", .str "ok", .str "success", .str "SUCCESS"]

/-! ## The polling client state machine (`AntigravityClient`)

The mutable fields of the `AntigravityClient` instance become a state record.
The repeating `setInterval` timer is the flag `pollingActive`; a scheduled
single-shot retry (`setTimeout` in the failure path of `doFetchQuota`) is the
flag `pendingRetry`.  Registered callbacks are modelled by presence flags;
their invocations are emitted as an event list.  The outcome of the network
round-trip (`makeGetUserStatusRequest` plus response validation / parsing) is
supplied by the environment as a `FetchOutcome`. -/

namespace AntigravityClient

/-- Constant `MAX_RETRY_COUNT` from `AntigravityClient.ts`. -/
def MAX_RETRY_COUNT : Nat := 3

/-- The mutable instance fields of `AntigravityClient`. -/
structure ClientState where
  port : Nat
  httpPort : Nat
  retryCount : Nat
  isRetrying : Bool
  isFirstAttempt : Bool
  /-- whether the repeating `setInterval` schedule is armed -/
  pollingActive : Bool
  /-- whether a single-shot `setTimeout` retry is outstanding -/
  pendingRetry : Bool
  csrfToken : Option String
  updateCallbackSet : Bool
  errorCallbackSet : Bool
  statusCallbackSet : Bool
deriving DecidableEq, Repr

/-- Result of one network round-trip with validation, as seen by the
`try`/`catch` in `doFetchQuota`. -/
inductive FetchOutcome where
  | success
  | failure
deriving DecidableEq, Repr

/-- Callback invocations observable from one step. -/
inductive ClientEvent where
  | statusFetching
  | statusRetrying (n : Nat)
  | quotaUpdate
  | errorFired
deriving DecidableEq, Repr

/-- The `AntigravityClient` constructor: `httpPort ?? port`, counters zeroed,
no schedule, no pending retry. -/
def mkClient (port : Nat) (csrfToken : Option String) (httpPort : Option Nat) :
    ClientState :=
  { port := port, httpPort := httpPort.getD port, retryCount := 0,
    isRetrying := false, isFirstAttempt := true, pollingActive := false,
    pendingRetry := false, csrfToken := csrfToken,
    updateCallbackSet := false, errorCallbackSet := false,
    statusCallbackSet := false }

/-- Method `AntigravityClient.setPorts(connectPort, httpPort?)`: rebind both ports
(`httpPort ?? connectPort`) and reset the retry counter. -/
def setPorts (s : ClientState) (connectPort : Nat) (httpPort : Option Nat) :
    ClientState :=
  { s with port := connectPort, httpPort := httpPort.getD connectPort,
           retryCount := 0 }

/-- Method `AntigravityClient.doFetchQuota()` as one step, given the round-trip
outcome.  Mirrors the source: the first-attempt status notification, the
success path resetting the retry state and publishing the snapshot, and the
failure path either scheduling one delayed re-attempt (while
`retryCount < MAX_RETRY_COUNT`) or resetting the counter and surfacing the
error. -/
def doFetchQuota (s : ClientState) (r : FetchOutcome) :
    ClientState × List ClientEvent :=
  let ev0 : List ClientEvent :=
    if s.statusCallbackSet ∧ s.isFirstAttempt then [.statusFetching] else []
  match r with
  | .success =>
    ({ s with retryCount := 0, isFirstAttempt := false, isRetrying := false },
     ev0 ++ if s.updateCallbackSet then [.quotaUpdate] else [])
  | .failure =>
    if s.retryCount < MAX_RETRY_COUNT then
      ({ s with retryCount := s.retryCount + 1, isRetrying := true,
                pendingRetry := true },
       ev0 ++ if s.statusCallbackSet then [.statusRetrying (s.retryCount + 1)] else [])
    else
      ({ s with isRetrying := false, retryCount := 0 },
       ev0 ++ if s.errorCallbackSet then [.errorFired] else [])

/-- Method `AntigravityClient.fetchQuota()`: skipped entirely while a retry is
pending (`isRetrying` guard), otherwise `doFetchQuota`. -/
def fetchQuota (s : ClientState) (r : FetchOutcome) :
    ClientState × List ClientEvent :=
  if s.isRetrying then (s, []) else doFetchQuota s r

/-- A scheduled `setInterval` tick runs `fetchQuota`. -/
def tick (s : ClientState) (r : FetchOutcome) : ClientState × List ClientEvent :=
  fetchQuota s r

/-- Method `AntigravityClient.quickRefresh()`: calls `doFetchQuota` directly, with
no `isRetrying` guard and no counter reset. -/
def quickRefresh (s : ClientState) (r : FetchOutcome) :
    ClientState × List ClientEvent :=
  doFetchQuota s r

/-- The single-shot retry timer firing: the `setTimeout` callback clears
`isRetrying` and re-enters `fetchQuota`. -/
def retryTimerFire (s : ClientState) (r : FetchOutcome) :
    ClientState × List ClientEvent :=
  fetchQuota { s with isRetrying := false, pendingRetry := false } r

/-- Method `AntigravityClient.stopPolling()`: clears the repeating schedule. -/
def stopPolling (s : ClientState) : ClientState :=
  { s with pollingActive := false }

/-- Method `AntigravityClient.startPolling(ms)`: stop any existing schedule, one
immediate fetch, then arm the repeating timer. -/
def startPolling (s : ClientState) (r : FetchOutcome) :
    ClientState × List ClientEvent :=
  let p := fetchQuota (stopPolling s) r
  ({ p.1 with pollingActive := true }, p.2)

/-- Number of error-callback invocations in an event list. -/
def countErrors (evs : List ClientEvent) : Nat :=
  evs.count .errorFired

/-- Run of `n` consecutive firings of the pending retry timer, each failing; returns
the final state and the total number of error-callback invocations. -/
def failTimerRun (s : ClientState) : Nat → ClientState × Nat
  | 0 => (s, 0)
  | n + 1 =>
    let p := retryTimerFire s .failure
    let q := failTimerRun p.1 n
    (q.1, countErrors p.2 + q.2)

/-- Run of `n` consecutive failures of `doFetchQuota`: the first is a direct call
(a polling tick or a quick refresh reaching `doFetchQuota`), each subsequent
one is the scheduled retry timer firing and failing again. -/
def consecutiveFailures (s : ClientState) : Nat → ClientState × Nat
  | 0 => (s, 0)
  | n + 1 =>
    let p := doFetchQuota s .failure
    let q := failTimerRun p.1 n
    (q.1, countErrors p.2 + q.2)

end AntigravityClient

/-! ## `makeRequest`: the HTTPS attempt with one-shot HTTP fallback -/

/-- A JS `Error` as inspected by `makeRequest`'s catch block: the optional
`code` property and the message. -/
structure JsError where
  code : Option String
  message : String
deriving DecidableEq, Repr

/-- Result of one `doRequest` round-trip inside `makeRequest`: a parsed JSON
body (abstracted) or a rejection. -/
inductive AttemptResult where
  | ok (body : String)
  | err (e : JsError)
deriving DecidableEq, Repr

/-- The catch-block test in `makeRequest` (`AntigravityClient.ts` lines
83-87): `error.code === "EPROTO"` or the lowercased message containing
`"wrong_version_number"`. -/
def isProtocolMismatch (e : JsError) : Bool :=
  e.code = some "EPROTO" ||
    hasSub "wrong_version_number".toList (lcList e.message.toList)

/-- Function `makeRequest`'s control flow after both potential round-trips are
abstracted as environment-supplied results: try HTTPS against `port`; on a
protocol-mismatch rejection with a configured `httpPort`, return the result
of exactly one plain-HTTP attempt against `httpPort`; otherwise propagate the
original rejection.  The second component counts HTTP retries issued. -/
def makeRequest (httpPort : Option Nat) (httpsAttempt httpAttempt : AttemptResult) :
    AttemptResult × Nat :=
  match httpsAttempt with
  | .ok body => (.ok body, 0)
  | .err e =>
    if httpPort.isSome && isProtocolMismatch e then (httpAttempt, 1)
    else (.err e, 0)

/-! ## `ProcessPortDetector.detectProcessInfo`: the detection retry loop

The platform strategy's process-listing execution, port enumeration and port
probing inside one loop iteration are abstracted as an environment oracle
`Bool → Nat → Except String ProcInfo`: given the current tool selection
(`usePowerShell`) and the number of attempt bodies already executed, it
yields either a complete detection result or the thrown error's message.
The loop is that of `ProcessPortDetector.js` lines 19-58, specialised to the
Windows platform (elsewhere the tool-switch branch is unreachable). -/

/-- The record returned by a successful detection attempt. -/
structure ProcInfo where
  extensionPort : Nat
  connectPort : Nat
  csrfToken : String
deriving DecidableEq, Repr

namespace ProcessPortDetector

/-- The error-text test of the catch block: `"not found"`, `"not
recognized"`, or the Chinese shell text for an unrecognized command. -/
def isToolMissingMsg (msg : String) : Bool :=
  hasSub "not found".toList msg.toList ||
    hasSub "not recognized".toList msg.toList ||
    hasSub "不是内部或外部命令".toList msg.toList

/-- One unfolding of the `for (attempt = 1; attempt <= maxRetries; ...)`
loop on Windows.  Returns `(result, final usePowerShell, attempt counter at
exit, oracle calls made)`.  In the source the tool-switch branch does
`attempt--; continue`, which after the loop increment re-runs the same
attempt number; a plain failure falls through to the delay and consumes the
slot.  Fuel bounds the iterations; the switch fires at most once, so
`2 * maxRetries + 2` fuel is never exhausted. -/
def detectLoop (oracle : Bool → Nat → Except String ProcInfo) :
    Nat → Bool → Nat → Nat → Nat → Option ProcInfo × Bool × Nat × Nat
  | 0, usePS, attempt, _, calls => (none, usePS, attempt, calls)
  | fuel + 1, usePS, attempt, maxRetries, calls =>
    if attempt > maxRetries then (none, usePS, attempt, calls)
    else
      match oracle usePS calls with
      | .ok info => (some info, usePS, attempt, calls + 1)
      | .error msg =>
        if isToolMissingMsg msg && !usePS then
          detectLoop oracle fuel true attempt maxRetries (calls + 1)
        else
          detectLoop oracle fuel usePS (attempt + 1) maxRetries (calls + 1)

/-- Method `ProcessPortDetector.detectProcessInfo(maxRetries)` on Windows, starting
from the given tool selection (`WindowsProcessDetector` constructs with
`usePowerShell = true`). -/
def detectProcessInfo (oracle : Bool → Nat → Except String ProcInfo)
    (startUsePS : Bool) (maxRetries : Nat) : Option ProcInfo × Bool × Nat × Nat :=
  detectLoop oracle (2 * maxRetries + 2) startUsePS 1 maxRetries 0

end ProcessPortDetector

/-! ## `AntigravityClient.parseModelQuota` and time formatting -/

namespace AntigravityClient

/-- The `quotaInfo` object of one model entry, as read by
`parseModelQuota`: an optional fraction in `[0,1]` and the raw `resetTime`
field (`none` for `undefined`/`null`; the empty string and `"infinite"` are
handled inside). -/
structure QuotaInfoIn where
  remainingFraction : Option ℚ
  resetTime : Option String
deriving DecidableEq, Repr

/-- The produced `ModelQuotaInfo` record; `resetTime` and `timeUntilReset`
are epoch milliseconds / millisecond durations. -/
structure ModelQuotaInfo where
  label : String
  modelId : String
  remainingFraction : Option ℚ
  remainingPercentage : Option ℚ
  isExhausted : Bool
  resetTime : Int
  timeUntilReset : Int
  timeUntilResetFormatted : String
deriving DecidableEq, Repr

/-- Method `AntigravityClient.formatTimeUntilReset(ms)`. -/
def formatTimeUntilReset (ms : Int) : String :=
  if ms ≤ 0 then "Expired"
  else
    let seconds := (ms / 1000).toNat
    let minutes := seconds / 60
    let hours := minutes / 60
    let days := hours / 24
    if days > 0 then s!"{days}d{hours % 24}h from now"
    else if hours > 0 then s!"{hours}h {minutes % 60}m from now"
    else if minutes > 0 then s!"{minutes}m {seconds % 60}s from now"
    else s!"{seconds}s from now"

/-- The JS maximum-date sentinel `8640000000000000` used for "no reset". -/
def FAR_FUTURE_MS : Int := 8640000000000000

/-- Method `AntigravityClient.parseModelQuota`, with `new Date(string)` parsing and
`Date.now()` supplied by the environment (`parseTs` returns `none` exactly
when the `Date` would be `NaN`).  A falsy `resetTime` (`undefined`, `null`,
`""`) or the sentinel string `"infinite"` yields the far-future sentinel; an
unparsable timestamp defaults to 24 hours from now. -/
def parseModelQuota (parseTs : String → Option Int) (now : Int)
    (label modelId : String) (q : QuotaInfoIn) : ModelQuotaInfo :=
  let rf := q.remainingFraction
  let rt : Int × Int :=
    match q.resetTime with
    | none => (FAR_FUTURE_MS, FAR_FUTURE_MS)
    | some s =>
      if s = "" ∨ s = "infinite" then (FAR_FUTURE_MS, FAR_FUTURE_MS)
      else
        match parseTs s with
        | some t => (t, t - now)
        | none => (now + 24 * 60 * 60 * 1000, now + 24 * 60 * 60 * 1000 - now)
  { label := label, modelId := modelId, remainingFraction := rf,
    remainingPercentage := rf.map (fun x => x * 100),
    isExhausted := rf = none ∨ rf = some 0,
    resetTime := rt.1, timeUntilReset := rt.2,
    timeUntilResetFormatted := formatTimeUntilReset rt.2 }

end AntigravityClient

/-! ## `UnixProcessDetector.parseProcessInfo` -/

namespace UnixProcessDetector

/-- Character class of the token capture `[a-f0-9\-]` under the `/i` flag. -/
def isTokenChar (c : Char) : Bool :=
  ('a' ≤ c && c ≤ 'f') || ('A' ≤ c && c ≤ 'F') || c.isDigit || c = '-'

/-- Position matcher for `--csrf_token[=\s]+([a-f0-9\-]+)` (flag `i`): the literal
(case-insensitively), a nonempty run of `=`/whitespace, then the captured
nonempty token-character run. -/
def csrfAt (l : List Char) : Option (List Char) :=
  (dropLitCI "--csrf_token".toList l).bind fun r1 =>
    (takeClass1 (fun c => c = '=' || c.isWhitespace) r1).bind fun p =>
      (takeClass1 isTokenChar p.2).map (fun q => q.1)

/-- Position matcher for `--extension_server_port[=\s]+(\d+)` (no `i` flag): the exact literal, a nonempty `=`/whitespace run, captured digits. -/
def extPortAt (l : List Char) : Option (List Char) :=
  (dropLit "--extension_server_port".toList l).bind fun r1 =>
    (takeClass1 (fun c => c = '=' || c.isWhitespace) r1).bind fun p =>
      (takeClass1 Char.isDigit p.2).map (fun q => q.1)

/-- JS word character, for the `\b` boundary after `antigravity`. -/
def isWordChar (c : Char) : Bool := c.isAlphanum || c = '_'

/-- Position matcher for `--app_data_dir\s+antigravity\b` (flag `i`). -/
def appDataDirAt (l : List Char) : Option Unit :=
  (dropLitCI "--app_data_dir".toList l).bind fun r1 =>
    (takeClass1 Char.isWhitespace r1).bind fun p =>
      (dropLitCI "antigravity".toList p.2).bind fun r2 =>
        match r2 with
        | [] => some ()
        | c :: _ => if isWordChar c then none else some ()

/-- Predicate `isAntigravityProcess(commandLine)`: the marker-flag regex, or a
path-fragment heuristic on the lowercased command line. -/
def isAntigravityProcess (cmd : List Char) : Bool :=
  (scanFirst appDataDirAt cmd).isSome ||
    hasSub "/antigravity/".toList (lcList cmd) ||
    hasSub "\\antigravity\\".toList (lcList cmd)

/-- One candidate row of the `ps` output. -/
structure UnixCandidate where
  pid : Int
  ppid : Int
  extensionPort : Nat
  csrfToken : String
deriving DecidableEq, Repr

/-- Join words with single spaces: `parts.slice(2).join(" ")`. -/
def joinSpace (ws : List (List Char)) : List Char :=
  (List.intersperse [' '] ws).flatten

/-- The first three whitespace-separated fields of a line and the tail
fields; `none` when the line has fewer than three fields (`parts.length < 3`
is skipped by the loop). -/
def lineFields (line : List Char) :
    Option (List Char × List Char × List Char × List (List Char)) :=
  match wordsOf (trimList line) with
  | p0 :: p1 :: p2 :: rest => some (p0, p1, p2, rest)
  | _ => none

/-- The command portion of one `ps` line: the third-and-later fields joined
by single spaces (`parts.slice(2).join(" ")`); `none` when the line has
fewer than three fields. -/
def lineCmd (line : List Char) : Option (List Char) :=
  (lineFields line).map (fun f => joinSpace (f.2.2.1 :: f.2.2.2))

/-- The body of the per-line loop in `parseProcessInfo`: split the trimmed
line into fields, require at least three, parse `pid`/`ppid` (a failed
`parseInt` is `NaN` and the row is skipped), skip `graftcp` rows, and keep
the row only when the command both carries a csrf token and matches the
application identity; each skip (`continue`) is a `none`. -/
def lineCandidate (line : List Char) : Option UnixCandidate :=
  (lineFields line).bind fun f =>
    (parseIntJs f.1).bind fun pid =>
      (parseIntJs f.2.1).bind fun ppid =>
        if hasSub "graftcp".toList f.2.2.1 then none
        else
          (scanFirst csrfAt (joinSpace (f.2.2.1 :: f.2.2.2))).bind fun tok =>
            if isAntigravityProcess (joinSpace (f.2.2.1 :: f.2.2.2)) then
              some { pid := pid, ppid := ppid,
                     extensionPort :=
                       ((scanFirst extPortAt (joinSpace (f.2.2.1 :: f.2.2.2))).map
                         digitsToNat).getD 0,
                     csrfToken := String.mk tok }
            else none

/-- The lines `parseProcessInfo` iterates over: the trimmed stdout split at
newlines. -/
def linesOf (stdout : String) : List (List Char) :=
  splitOnChar '\n' (trimList stdout.toList)

/-- The candidate list accumulated by the per-line loop. -/
def candidatesOf (stdout : String) : List UnixCandidate :=
  (linesOf stdout).filterMap lineCandidate

/-- Method `UnixProcessDetector.parseProcessInfo(stdout)` with `process.pid`
supplied explicitly: empty output gives `none`; otherwise the candidate
whose `ppid` is the caller's pid if present (`find(...)`), else the first
candidate (`|| candidates[0]`), else `none`. -/
def parseProcessInfo (stdout : String) (currentPid : Int) :
    Option UnixCandidate :=
  if (trimList stdout.toList).isEmpty then none
  else
    ((candidatesOf stdout).find? (fun c => c.ppid = currentPid)).orElse
      (fun _ => (candidatesOf stdout).head?)

/-- A line contributes no candidate for token/identity reasons: either it has
no command portion, or its command lacks a csrf token or does not match the
application identity. -/
def lineLacksTokenOrIdentity (line : List Char) : Bool :=
  match lineCmd line with
  | none => true
  | some cmd => !((scanFirst csrfAt cmd).isSome && isAntigravityProcess cmd)

/-! ## Listening-port parsing (`parseListeningPorts`, Unix and Windows) -/

/-- Position matcher for `127\.0\.0\.1:(\d+).*\(LISTEN\)`: the literal,
the captured digits, and `"(LISTEN)"` somewhere in the remainder. -/
def lsofAt (l : List Char) : Option (List Char) :=
  (dropLit "127.0.0.1:".toList l).bind fun r1 =>
    (takeClass1 Char.isDigit r1).bind fun p =>
      if hasSub "(LISTEN)".toList p.2 then some p.1 else none

/-- Position matcher for
`LISTEN\s+\d+\s+\d+\s+(?:127\.0\.0\.1|\*):(\d+)`. -/
def ssAt (l : List Char) : Option (List Char) :=
  (dropLit "LISTEN".toList l).bind fun r1 =>
    (takeClass1 Char.isWhitespace r1).bind fun w1 =>
      (takeClass1 Char.isDigit w1.2).bind fun d1 =>
        (takeClass1 Char.isWhitespace d1.2).bind fun w2 =>
          (takeClass1 Char.isDigit w2.2).bind fun d2 =>
            (takeClass1 Char.isWhitespace d2.2).bind fun w3 =>
              ((match dropLit "127.0.0.1".toList w3.2 with
                | some r => some r
                | none => dropLit "*".toList w3.2 : Option (List Char))).bind fun r2 =>
                (dropLit ":".toList r2).bind fun r3 =>
                  (takeClass1 Char.isDigit r3).map (fun q => q.1)

/-- Position matcher for `127\.0\.0\.1:(\d+).*LISTEN`. -/
def netstatAt (l : List Char) : Option (List Char) :=
  (dropLit "127.0.0.1:".toList l).bind fun r1 =>
    (takeClass1 Char.isDigit r1).bind fun p =>
      if hasSub "LISTEN".toList p.2 then some p.1 else none

/-- Position matcher for
`localhost:(\d+).*\(LISTEN\)|localhost:(\d+).*LISTEN` (first alternative
preferred; `m[1] || m[2]` collapses to the same captured digits). -/
def lhAt (l : List Char) : Option (List Char) :=
  (dropLit "localhost:".toList l).bind fun r1 =>
    (takeClass1 Char.isDigit r1).bind fun p =>
      if hasSub "(LISTEN)".toList p.2 then some p.1
      else if hasSub "LISTEN".toList p.2 then some p.1
      else none

/-- Per-line port extraction: `lsofMatch || ssMatch || netstatMatch ||
lhMatch`, each an unanchored leftmost search over the line. -/
def lineToPort (line : List Char) : Option Nat :=
  (((scanFirst lsofAt line).orElse (fun _ => scanFirst ssAt line)).orElse
      (fun _ => scanFirst netstatAt line)).orElse
      (fun _ => scanFirst lhAt line)
    |>.map digitsToNat

/-- The ports pushed by the loop, in input order, before de-duplication. -/
def extractedPorts (stdout : String) : List Nat :=
  if (trimList stdout.toList).isEmpty then []
  else (splitOnChar '\n' (trimList stdout.toList)).filterMap lineToPort

end UnixProcessDetector

/-- The `if (!ports.includes(p)) ports.push(p)` accumulation: keep first
occurrences, in order. -/
def dedupKeepFirst (l : List Nat) : List Nat :=
  l.foldl (fun acc p => if p ∈ acc then acc else acc ++ [p]) []

namespace UnixProcessDetector

/-- Method `UnixProcessDetector.parseListeningPorts(stdout)`: extract, de-duplicate
in input order, then `sort((a, b) => a - b)`. -/
def parseListeningPorts (stdout : String) : List Nat :=
  (dedupKeepFirst (extractedPorts stdout)).insertionSort (· ≤ ·)

end UnixProcessDetector

namespace WindowsProcessDetector

/-- Position matcher for one match of
`(?:127\.0\.0\.1|0\.0\.0\.0|\[::1?\]):(\d+)\s+\S+\s+LISTENING` (flags `gi`),
returning the captured digits and the remainder after the match. -/
def winAt (l : List Char) : Option (List Char × List Char) :=
  (match dropLit "127.0.0.1".toList l with
    | some r => some r
    | none =>
      match dropLit "0.0.0.0".toList l with
      | some r => some r
      | none =>
        match dropLit "[::1]".toList l with
        | some r => some r
        | none => dropLit "[::]".toList l).bind fun r1 =>
    (dropLit ":".toList r1).bind fun r2 =>
      (takeClass1 Char.isDigit r2).bind fun d =>
        (takeClass1 Char.isWhitespace d.2).bind fun w1 =>
          (takeClass1 (fun c => ¬ c.isWhitespace) w1.2).bind fun f =>
            (takeClass1 Char.isWhitespace f.2).bind fun w2 =>
              (dropLitCI "listening".toList w2.2).map (fun rest => (d.1, rest))

/-- The successive-match loop of a global regex `exec`: scan left to right,
resuming after the end of each match; `fuel` bounds the steps (each step
consumes at least one character, so the input length suffices). -/
def winExtract : Nat → List Char → List Nat
  | 0, _ => []
  | _, [] => []
  | fuel + 1, c :: t =>
    match winAt (c :: t) with
    | some (d, rest) => digitsToNat d :: winExtract fuel rest
    | none => winExtract fuel t

/-- The ports matched by the global regex, in input order. -/
def extractedPorts (stdout : String) : List Nat :=
  winExtract (stdout.toList.length + 1) stdout.toList

/-- Method `WindowsProcessDetector.parseListeningPorts(stdout)`: global-regex
extraction, de-duplication in input order, ascending sort. -/
def parseListeningPorts (stdout : String) : List Nat :=
  (dedupKeepFirst (extractedPorts stdout)).insertionSort (· ≤ ·)

end WindowsProcessDetector

/-- An lsof-format port listing embedding the ports [3, 1, 3, 2]. -/
def lsofPortsSample : String :=
  "node 127.0.0.1:3 (LISTEN)\nnode 127.0.0.1:1 (LISTEN)\nnode 127.0.0.1:3 (LISTEN)\nnode 127.0.0.1:2 (LISTEN)"

/-- The same port multiset in a different order: [2, 3, 1, 3]. -/
def lsofPortsShuffled : String :=
  "node 127.0.0.1:2 (LISTEN)\nnode 127.0.0.1:3 (LISTEN)\nnode 127.0.0.1:1 (LISTEN)\nnode 127.0.0.1:3 (LISTEN)"

/-- A netstat-format (Windows) listing embedding the ports [3, 1, 3, 2]. -/
def winPortsSample : String :=
  "  TCP    127.0.0.1:3    0.0.0.0:0    LISTENING    77\n  TCP    127.0.0.1:1    0.0.0.0:0    LISTENING    77\n  TCP    127.0.0.1:3    0.0.0.0:0    LISTENING    77\n  TCP    0.0.0.0:2    0.0.0.0:0    LISTENING    77"

end AQM

namespace AQM

/-! ## Concrete states used by counterexamples and witnesses -/

/-- A freshly constructed client with all three callbacks registered and an
armed polling schedule, as `SessionController.initialize` produces. -/
def freshPollingState : AntigravityClient.ClientState :=
  { AntigravityClient.mkClient 4242 (some "tok") none with
    pollingActive := true
    updateCallbackSet := true
    errorCallbackSet := true
    statusCallbackSet := true }

/-- The client mid-retry: one failure has occurred, a delayed re-attempt is
pending (the `Retrying` state). -/
def retryingState : AntigravityClient.ClientState :=
  { freshPollingState with
    isRetrying := true
    pendingRetry := true
    retryCount := 1
    isFirstAttempt := false }

/-! ## C2 — the application-level OK whitelist -/

/-- C2 counterexample: the response code `"Ok"` is accepted as OK by
`getInvalidCodeInfo` (the fetch succeeds), yet `"Ok"` is not among the six
values the claim enumerates — the claimed whitelist is incomplete. -/
theorem C2_counterexample :
    AntigravityClient.getInvalidCodeInfo (.str "Ok") (some "msg") = none ∧
      JsVal.str "Ok" ∉ specOkValues := by
  decide

/-- C2 amended: for every present (neither `undefined` nor `null`) code,
`getInvalidCodeInfo` treats the response as OK (returns `none`) iff the code
is one of exactly `0`, `"0"`, `"OK"`, `"Ok"`, `"ok"`, `"success"`,
`"SUCCESS"`; any other code yields an error carrying that code and the
response message. -/
theorem C2_amended (code : JsVal) (msg : Option String)
    (h1 : code ≠ .undef) (h2 : code ≠ .nullv) :
    (AntigravityClient.getInvalidCodeInfo code msg = none ↔
        code ∈ AntigravityClient.okValues) ∧
      (code ∉ AntigravityClient.okValues →
        AntigravityClient.getInvalidCodeInfo code msg = some (code, msg)) := by
  unfold AntigravityClient.getInvalidCodeInfo
  rw [if_neg (by simp [h1, h2])]
  constructor
  · constructor
    · intro h
      by_contra hc
      rw [if_neg hc] at h
      exact Option.noConfusion h
    · intro h
      rw [if_pos h]
  · intro h
    rw [if_neg h]

/-- C2 witness: the non-whitelisted code `"BAD"` is rejected and returned
with the message. -/
theorem C2_witness :
    (AntigravityClient.getInvalidCodeInfo (.str "BAD") (some "m") = none ↔
        JsVal.str "BAD" ∈ AntigravityClient.okValues) ∧
      (JsVal.str "BAD" ∉ AntigravityClient.okValues →
        AntigravityClient.getInvalidCodeInfo (.str "BAD") (some "m") =
          some (.str "BAD", some "m")) :=
  C2_amended (.str "BAD") (some "m") (by decide) (by decide)

/-! ## C3 — suppression of concurrent fetches in the `Retrying` state -/

/-- C3 counterexample: with the client in the `Retrying` state, a manual
`quickRefresh()` does start a new `doFetchQuota` attempt (here the attempt
fails and pushes the retry counter from 1 to 2), contradicting the claim
that no new fetch starts while `Retrying`. -/
theorem C3_counterexample :
    retryingState.isRetrying = true ∧
      AntigravityClient.quickRefresh retryingState .failure =
        AntigravityClient.doFetchQuota retryingState .failure ∧
      (AntigravityClient.quickRefresh retryingState .failure).1.retryCount = 2 := by
  decide

/-- C3 amended: while the client is in the `Retrying` state a scheduled
polling tick performs no fetch (state and callbacks untouched), but a manual
`quickRefresh()` bypasses the guard and always invokes `doFetchQuota`. -/
theorem C3_amended :
    (∀ (s : AntigravityClient.ClientState) (r : AntigravityClient.FetchOutcome),
        s.isRetrying = true → AntigravityClient.tick s r = (s, [])) ∧
      (∀ (s : AntigravityClient.ClientState) (r : AntigravityClient.FetchOutcome),
        AntigravityClient.quickRefresh s r = AntigravityClient.doFetchQuota s r) :=
  ⟨fun s r h => by simp [AntigravityClient.tick, AntigravityClient.fetchQuota, h],
   fun _ _ => rfl⟩

/-- C3 witness: a scheduled tick in the concrete `Retrying` state is a
no-op. -/
theorem C3_witness :
    AntigravityClient.tick retryingState .failure = (retryingState, []) :=
  C3_amended.1 retryingState .failure rfl

/-! ## C4 — when the retry counter is reset -/

/-- C4 counterexample: a manual `quickRefresh()` request does not reset the
retry counter — requested at `retryCount = 2` and failing, it leaves the
counter at 3, not 0. -/
theorem C4_counterexample :
    (AntigravityClient.quickRefresh
        { freshPollingState with retryCount := 2, isFirstAttempt := false }
        .failure).1.retryCount = 3 := by
  decide

/-- C4 amended: the retry counter is reset to zero on every successful
fetch — including one initiated by `quickRefresh` — but requesting a
`quickRefresh` does not by itself reset the counter (the reset happens only
through the success path). -/
theorem C4_amended (s : AntigravityClient.ClientState) :
    (AntigravityClient.doFetchQuota s .success).1.retryCount = 0 ∧
      (AntigravityClient.quickRefresh s .success).1.retryCount = 0 :=
  ⟨rfl, rfl⟩

/-! ## C5 — TLS-then-HTTP fallback in `makeRequest` -/

/-- C5: when the HTTPS attempt fails with the protocol-mismatch signature
(`code === "EPROTO"` or lowercased message containing
`"wrong_version_number"`) and a fallback HTTP port is configured,
`makeRequest` issues exactly one plain-HTTP retry and returns that attempt's
result; on any other failure, or without a fallback port, the original error
propagates with no retry; a successful HTTPS attempt never retries. -/
theorem C5_makeRequest_fallback :
    (∀ (p : Nat) (e : JsError) (second : AttemptResult),
        (e.code = some "EPROTO" ∨
            hasSub "wrong_version_number".toList (lcList e.message.toList) = true) →
        makeRequest (some p) (.err e) second = (second, 1)) ∧
      (∀ (hp : Option Nat) (e : JsError) (second : AttemptResult),
        e.code ≠ some "EPROTO" →
        hasSub "wrong_version_number".toList (lcList e.message.toList) = false →
        makeRequest hp (.err e) second = (.err e, 0)) ∧
      (∀ (e : JsError) (second : AttemptResult),
        makeRequest none (.err e) second = (.err e, 0)) ∧
      (∀ (body : String) (hp : Option Nat) (second : AttemptResult),
        makeRequest hp (.ok body) second = (.ok body, 0)) := by
  refine ⟨fun p e second h => ?_, fun hp e second h1 h2 => ?_,
          fun e second => ?_, fun body hp second => rfl⟩
  · have hm : isProtocolMismatch e = true := by
      rcases h with h | h
      · simp [isProtocolMismatch, h]
      · unfold isProtocolMismatch
        rw [h]
        simp
    simp [makeRequest, hm]
  · have hm : isProtocolMismatch e = false := by
      unfold isProtocolMismatch
      rw [h2]
      simp [h1]
    simp [makeRequest, hm]
  · simp [makeRequest]

/-- C5 witness: an `EPROTO` handshake failure with a configured fallback
port retries once over HTTP and returns that result. -/
theorem C5_witness :
    makeRequest (some 8080) (.err ⟨some "EPROTO", "x"⟩) (.ok "resp") =
      (.ok "resp", 1) :=
  C5_makeRequest_fallback.1 8080 ⟨some "EPROTO", "x"⟩ (.ok "resp")
    (Or.inl rfl)

/-! ## C10 — the frame of `setPorts` -/

/-- C10: `setPorts(connectPort, httpPort)` sets the secure port, sets the
HTTP fallback port (defaulting to `connectPort` when omitted), and resets
the retry counter to zero, while leaving the csrf token, the registered
callbacks, the `isRetrying` flag, the first-attempt flag, the pending retry
timer, and the polling schedule unchanged. -/
theorem C10_setPorts_frame (s : AntigravityClient.ClientState)
    (connectPort : Nat) (httpPort : Option Nat) :
    (AntigravityClient.setPorts s connectPort httpPort).port = connectPort ∧
    (AntigravityClient.setPorts s connectPort httpPort).httpPort = httpPort.getD connectPort ∧
    (AntigravityClient.setPorts s connectPort httpPort).retryCount = 0 ∧
    (AntigravityClient.setPorts s connectPort httpPort).csrfToken = s.csrfToken ∧
    (AntigravityClient.setPorts s connectPort httpPort).isRetrying = s.isRetrying ∧
    (AntigravityClient.setPorts s connectPort httpPort).isFirstAttempt = s.isFirstAttempt ∧
    (AntigravityClient.setPorts s connectPort httpPort).pollingActive = s.pollingActive ∧
    (AntigravityClient.setPorts s connectPort httpPort).pendingRetry = s.pendingRetry ∧
    (AntigravityClient.setPorts s connectPort httpPort).updateCallbackSet = s.updateCallbackSet ∧
    (AntigravityClient.setPorts s connectPort httpPort).errorCallbackSet = s.errorCallbackSet ∧
    (AntigravityClient.setPorts s connectPort httpPort).statusCallbackSet = s.statusCallbackSet :=
  ⟨rfl, rfl, rfl, rfl, rfl, rfl, rfl, rfl, rfl, rfl, rfl⟩

end AQM

namespace AQM

/-! ## C1 — the retry budget and the error callback -/

/-- C1 counterexample: starting a fresh client (retry counter 0) and running
exactly `MAX_RETRY_COUNT` (= 3) consecutive failures of `doFetchQuota`, the
error callback has fired zero times — not once — and the retry counter is 3,
not 0: the budget is exhausted only on the following (fourth) failure. -/
theorem C1_counterexample :
    (AntigravityClient.consecutiveFailures freshPollingState 3).2 = 0 ∧
      (AntigravityClient.consecutiveFailures freshPollingState 3).1.retryCount = 3 := by
  decide

/-- C1 amended: after exactly `MAX_RETRY_COUNT + 1` (= 4) consecutive
failures of `doFetchQuota` — the initial attempt plus the three scheduled
re-attempts — the registered error callback is invoked exactly once, the
retry counter equals 0 immediately afterwards, and the repeating polling
schedule is left exactly as it was (only an explicit stop clears it). -/
theorem C1_amended (s : AntigravityClient.ClientState)
    (h0 : s.retryCount = 0) (he : s.errorCallbackSet = true) :
    (AntigravityClient.consecutiveFailures s 4).2 = 1 ∧
      (AntigravityClient.consecutiveFailures s 4).1.retryCount = 0 ∧
      (AntigravityClient.consecutiveFailures s 4).1.pollingActive = s.pollingActive := by
  obtain ⟨port, httpPort, rc, ir, fa, pa, pr, tok, uc, ec, sc⟩ := s
  simp only at h0 he
  subst h0
  subst he
  cases fa <;> cases sc <;>
    simp [AntigravityClient.consecutiveFailures, AntigravityClient.failTimerRun,
      AntigravityClient.doFetchQuota, AntigravityClient.retryTimerFire,
      AntigravityClient.fetchQuota, AntigravityClient.countErrors,
      AntigravityClient.MAX_RETRY_COUNT]

/-- C1 witness: the amended statement evaluated on the fresh client. -/
theorem C1_witness :
    (AntigravityClient.consecutiveFailures freshPollingState 4).2 = 1 ∧
      (AntigravityClient.consecutiveFailures freshPollingState 4).1.retryCount = 0 ∧
      (AntigravityClient.consecutiveFailures freshPollingState 4).1.pollingActive =
        freshPollingState.pollingActive :=
  C1_amended freshPollingState rfl rfl

/-! ## C6 — the Windows tool switch in `detectProcessInfo` -/

/-- C6 counterexample: with the strategy on the modern listing tool
(`usePowerShell = true`, the constructor default) and every listing attempt
failing with tool-missing text, no demotion to the legacy tool ever happens
(the flag is still `true` at exit), every one of the three budget slots is
consumed, and detection returns nothing — the claimed modern-to-legacy
demotion does not exist in the code. -/
theorem C6_counterexample :
    ProcessPortDetector.detectProcessInfo
        (fun _ _ => .error "not recognized") true 3 = (none, true, 4, 3) := by
  decide

/-- C6 amended: the structural fallback runs in the opposite direction of
the claim — when a process-listing attempt fails with tool-missing text
while the strategy is on the legacy tool (`usePowerShell = false`), the
detector promotes to the modern tool and retries the same logical attempt
without consuming a retry slot (a fallback that then succeeds has consumed
attempt 1, not 2, across 2 command executions); the switch is applied at
most once per detection run (a later tool-missing failure consumes a slot
normally). -/
theorem C6_amended (info : ProcInfo) :
    ProcessPortDetector.detectProcessInfo
        (fun _ n => if n = 0 then .error "command not recognized" else .ok info)
        false 3 = (some info, true, 1, 2) ∧
      ProcessPortDetector.detectProcessInfo
        (fun _ n => if n ≤ 1 then .error "command not recognized" else .ok info)
        false 3 = (some info, true, 2, 3) :=
  ⟨rfl, rfl⟩

/-! ## C9 — `parseModelQuota` reset-time handling -/

/-- C9: for a model entry whose `resetTime` is absent or the sentinel string
`"infinite"`, `parseModelQuota` sets `timeUntilReset` to the sentinel
`8640000000000000` ms and `isExhausted` holds iff `remainingFraction` is
absent or zero; a present but unparsable `resetTime` defaults the reset to
24 hours from now instead of failing. -/
theorem C9_parseModelQuota (parseTs : String → Option Int) (now : Int)
    (label modelId : String) (q : AntigravityClient.QuotaInfoIn) :
    ((q.resetTime = none ∨ q.resetTime = some "infinite") →
        (AntigravityClient.parseModelQuota parseTs now label modelId q).timeUntilReset =
          8640000000000000 ∧
        ((AntigravityClient.parseModelQuota parseTs now label modelId q).isExhausted = true ↔
          (q.remainingFraction = none ∨ q.remainingFraction = some 0))) ∧
      (∀ ts : String, q.resetTime = some ts → ts ≠ "" → ts ≠ "infinite" →
        parseTs ts = none →
        (AntigravityClient.parseModelQuota parseTs now label modelId q).resetTime =
          now + 24 * 60 * 60 * 1000) := by
  constructor
  · intro h
    rcases h with h | h <;>
      simp [AntigravityClient.parseModelQuota, AntigravityClient.FAR_FUTURE_MS, h,
        decide_eq_true_iff]
  · intro ts hts hne hinf hparse
    simp [AntigravityClient.parseModelQuota, hts, hne, hinf, hparse]

/-- C9 witness: a concrete exhausted entry with `resetTime: "infinite"`. -/
theorem C9_witness :
    (AntigravityClient.parseModelQuota (fun _ => none) 0 "L" "m"
        ⟨some 0, some "infinite"⟩).timeUntilReset = 8640000000000000 ∧
      ((AntigravityClient.parseModelQuota (fun _ => none) 0 "L" "m"
          ⟨some 0, some "infinite"⟩).isExhausted = true ↔
        ((⟨some 0, some "infinite"⟩ : AntigravityClient.QuotaInfoIn).remainingFraction = none ∨
          (⟨some 0, some "infinite"⟩ : AntigravityClient.QuotaInfoIn).remainingFraction = some 0)) :=
  (C9_parseModelQuota (fun _ => none) 0 "L" "m" ⟨some 0, some "infinite"⟩).1
    (Or.inr rfl)

end AQM

namespace AQM

/-! ## C8 — ordering and de-duplication of `parseListeningPorts` -/

/-- The de-duplicating fold keeps the accumulator duplicate-free. -/
theorem dedupKeepFirst_aux_nodup (l : List Nat) :
    ∀ acc : List Nat, acc.Nodup →
      (l.foldl (fun acc p => if p ∈ acc then acc else acc ++ [p]) acc).Nodup := by
  induction l with
  | nil => intro acc h; simpa using h
  | cons x xs ih =>
    intro acc h
    simp only [List.foldl_cons]
    by_cases hx : x ∈ acc
    · rw [if_pos hx]
      exact ih acc h
    · rw [if_neg hx]
      refine ih _ ?_
      simp [List.nodup_append, h, hx]

/-- Membership in the de-duplicating fold. -/
theorem dedupKeepFirst_aux_mem (l : List Nat) :
    ∀ (acc : List Nat) (a : Nat),
      (a ∈ l.foldl (fun acc p => if p ∈ acc then acc else acc ++ [p]) acc ↔
        a ∈ acc ∨ a ∈ l) := by
  induction l with
  | nil => intro acc a; simp
  | cons x xs ih =>
    intro acc a
    simp only [List.foldl_cons]
    by_cases hx : x ∈ acc
    · rw [if_pos hx, ih]
      constructor
      · rintro (h | h)
        · exact Or.inl h
        · exact Or.inr (List.mem_cons_of_mem _ h)
      · rintro (h | h)
        · exact Or.inl h
        · rcases List.mem_cons.mp h with h | h
          · exact Or.inl (h ▸ hx)
          · exact Or.inr h
    · rw [if_neg hx, ih]
      simp only [List.mem_append, List.mem_singleton, List.mem_cons]
      tauto

/-- `dedupKeepFirst` produces a duplicate-free list. -/
theorem dedupKeepFirst_nodup (l : List Nat) : (dedupKeepFirst l).Nodup :=
  dedupKeepFirst_aux_nodup l [] (by simp)

/-- `dedupKeepFirst` preserves membership. -/
theorem mem_dedupKeepFirst (l : List Nat) (a : Nat) :
    a ∈ dedupKeepFirst l ↔ a ∈ l := by
  simpa using dedupKeepFirst_aux_mem l [] a

/-- Sorting the de-duplicated list keeps it duplicate-free. -/
theorem sortedDedup_nodup (l : List Nat) :
    ((dedupKeepFirst l).insertionSort (· ≤ ·)).Nodup :=
  (List.perm_insertionSort _ _).symm.nodup (dedupKeepFirst_nodup l)

/-- Membership after de-duplication and sorting. -/
theorem mem_sortedDedup (l : List Nat) (a : Nat) :
    a ∈ (dedupKeepFirst l).insertionSort (· ≤ ·) ↔ a ∈ l := by
  rw [(List.perm_insertionSort _ _).mem_iff, mem_dedupKeepFirst]

/-- De-duplicated ascending sort depends only on set membership: the result
is the unique sorted duplicate-free enumeration. -/
theorem sortedDedup_ext (l₁ l₂ : List Nat) (h : ∀ a, a ∈ l₁ ↔ a ∈ l₂) :
    (dedupKeepFirst l₁).insertionSort (· ≤ ·) =
      (dedupKeepFirst l₂).insertionSort (· ≤ ·) := by
  apply List.eq_of_perm_of_sorted ?_ (List.sorted_insertionSort _ _)
    (List.sorted_insertionSort _ _)
  rw [List.perm_ext_iff_of_nodup (sortedDedup_nodup l₁) (sortedDedup_nodup l₂)]
  intro a
  rw [mem_sortedDedup, mem_sortedDedup]
  exact h a

/-- C8: both `parseListeningPorts` implementations return an ascending,
duplicate-free list of exactly the port numbers embedded in the input,
depending only on the set of embedded ports (order-independent); on inputs
embedding the ports [3, 1, 3, 2] the result is [1, 2, 3]. -/
theorem C8_parseListeningPorts :
    (∀ s : String,
        (UnixProcessDetector.parseListeningPorts s).Sorted (· ≤ ·) ∧
        (UnixProcessDetector.parseListeningPorts s).Nodup ∧
        ∀ p, p ∈ UnixProcessDetector.parseListeningPorts s ↔
          p ∈ UnixProcessDetector.extractedPorts s) ∧
    (∀ s₁ s₂ : String,
        (∀ p ∈ UnixProcessDetector.extractedPorts s₁,
          p ∈ UnixProcessDetector.extractedPorts s₂) →
        (∀ p ∈ UnixProcessDetector.extractedPorts s₂,
          p ∈ UnixProcessDetector.extractedPorts s₁) →
        UnixProcessDetector.parseListeningPorts s₁ =
          UnixProcessDetector.parseListeningPorts s₂) ∧
    UnixProcessDetector.parseListeningPorts lsofPortsSample = [1, 2, 3] ∧
    (∀ s : String,
        (WindowsProcessDetector.parseListeningPorts s).Sorted (· ≤ ·) ∧
        (WindowsProcessDetector.parseListeningPorts s).Nodup ∧
        ∀ p, p ∈ WindowsProcessDetector.parseListeningPorts s ↔
          p ∈ WindowsProcessDetector.extractedPorts s) ∧
    (∀ s₁ s₂ : String,
        (∀ p ∈ WindowsProcessDetector.extractedPorts s₁,
          p ∈ WindowsProcessDetector.extractedPorts s₂) →
        (∀ p ∈ WindowsProcessDetector.extractedPorts s₂,
          p ∈ WindowsProcessDetector.extractedPorts s₁) →
        WindowsProcessDetector.parseListeningPorts s₁ =
          WindowsProcessDetector.parseListeningPorts s₂) ∧
    WindowsProcessDetector.parseListeningPorts winPortsSample = [1, 2, 3] := by
  refine ⟨fun s => ⟨List.sorted_insertionSort _ _, sortedDedup_nodup _,
      fun p => mem_sortedDedup _ p⟩,
    fun s₁ s₂ h12 h21 => sortedDedup_ext _ _ (fun a => ⟨h12 a, h21 a⟩),
    by decide,
    fun s => ⟨List.sorted_insertionSort _ _, sortedDedup_nodup _,
      fun p => mem_sortedDedup _ p⟩,
    fun s₁ s₂ h12 h21 => sortedDedup_ext _ _ (fun a => ⟨h12 a, h21 a⟩),
    by decide⟩

/-- C8 witness: two lsof listings embedding the same ports in different
orders parse to the same ascending duplicate-free list. -/
theorem C8_witness :
    UnixProcessDetector.parseListeningPorts lsofPortsSample =
      UnixProcessDetector.parseListeningPorts lsofPortsShuffled :=
  C8_parseListeningPorts.2.1 lsofPortsSample lsofPortsShuffled
    (by decide) (by decide)

end AQM

namespace AQM

/-! ## C7 — selection and validity in `parseProcessInfo` -/

/-- A nonempty character class match captures at least one character. -/
theorem takeClass1_ne_nil {p : Char → Bool} {l tk rest : List Char}
    (h : takeClass1 p l = some (tk, rest)) : tk ≠ [] := by
  unfold takeClass1 at h
  rcases hs : l.span p with ⟨a, b⟩
  rw [hs] at h
  cases a with
  | nil => simp at h
  | cons c t =>
    simp only [Option.some.injEq, Prod.mk.injEq] at h
    rw [← h.1]
    simp

/-- The token captured by the csrf regex at a position is nonempty. -/
theorem csrfAt_ne_nil {l tok : List Char}
    (h : UnixProcessDetector.csrfAt l = some tok) : tok ≠ [] := by
  unfold UnixProcessDetector.csrfAt at h
  rcases h1 : dropLitCI "--csrf_token".toList l with _ | r1 <;> rw [h1] at h
  · simp at h
  · simp only [Option.some_bind] at h
    rcases h2 : takeClass1 (fun c => c = '=' || c.isWhitespace) r1 with _ | ⟨ws, r2⟩ <;>
      rw [h2] at h
    · simp at h
    · simp only [Option.some_bind] at h
      rcases h3 : takeClass1 UnixProcessDetector.isTokenChar r2 with _ | ⟨tk, rest⟩ <;>
        rw [h3] at h
      · simp at h
      · have h4 : some tk = some tok := h
        cases h4
        exact takeClass1_ne_nil h3

/-- A property of every position-match transfers to the leftmost match. -/
theorem scanFirst_prop {α : Type} {f : List Char → Option α} {P : α → Prop}
    (hf : ∀ l a, f l = some a → P a) :
    ∀ (l : List Char) (a : α), scanFirst f l = some a → P a := by
  intro l
  induction l with
  | nil => intro a h; exact hf [] a h
  | cons c t ih =>
    intro a h
    simp only [scanFirst] at h
    rcases h1 : f (c :: t) with _ | x <;> rw [h1] at h
    · exact ih a h
    · simp only [Option.some.injEq] at h
      exact h ▸ hf _ _ h1

/-- Every candidate produced by the per-line loop comes from a line whose
command portion carries a csrf token and matches the application identity,
and its token is nonempty. -/
theorem lineCandidate_some {line : List Char}
    {c : UnixProcessDetector.UnixCandidate}
    (h : UnixProcessDetector.lineCandidate line = some c) :
    ∃ cmd, UnixProcessDetector.lineCmd line = some cmd ∧
      (scanFirst UnixProcessDetector.csrfAt cmd).isSome = true ∧
      UnixProcessDetector.isAntigravityProcess cmd = true ∧
      c.csrfToken ≠ "" := by
  unfold UnixProcessDetector.lineCandidate at h
  rcases hF : UnixProcessDetector.lineFields line with _ | f <;> rw [hF] at h
  · simp at h
  simp only [Option.some_bind] at h
  rcases hp0 : parseIntJs f.1 with _ | pid <;> rw [hp0] at h
  · simp at h
  simp only [Option.some_bind] at h
  rcases hp1 : parseIntJs f.2.1 with _ | ppid <;> rw [hp1] at h
  · simp at h
  simp only [Option.some_bind] at h
  by_cases hg : hasSub "graftcp".toList f.2.2.1 = true
  · rw [if_pos hg] at h
    simp at h
  rw [if_neg hg] at h
  rcases htok : scanFirst UnixProcessDetector.csrfAt
      (UnixProcessDetector.joinSpace (f.2.2.1 :: f.2.2.2)) with _ | tok <;>
    rw [htok] at h
  · simp at h
  simp only [Option.some_bind] at h
  by_cases hid : UnixProcessDetector.isAntigravityProcess
      (UnixProcessDetector.joinSpace (f.2.2.1 :: f.2.2.2)) = true
  · rw [if_pos hid] at h
    simp only [Option.some.injEq] at h
    refine ⟨UnixProcessDetector.joinSpace (f.2.2.1 :: f.2.2.2), ?_, ?_, hid, ?_⟩
    · unfold UnixProcessDetector.lineCmd
      rw [hF]
      rfl
    · rw [htok]
      rfl
    · have htk : tok ≠ [] :=
        scanFirst_prop (fun l a ha => csrfAt_ne_nil ha) _ tok htok
      rw [← h]
      intro hcon
      exact htk (by simpa using congrArg String.data hcon)
  · rw [if_neg hid] at h
    simp at h

/-- Under the no-token-or-identity hypothesis the candidate list is empty. -/
theorem candidatesOf_eq_nil {stdout : String}
    (h : ∀ line ∈ UnixProcessDetector.linesOf stdout,
      UnixProcessDetector.lineLacksTokenOrIdentity line = true) :
    UnixProcessDetector.candidatesOf stdout = [] := by
  unfold UnixProcessDetector.candidatesOf
  rw [List.filterMap_eq_nil_iff]
  intro line hline
  rcases hc : UnixProcessDetector.lineCandidate line with _ | c
  · rfl
  · exfalso
    obtain ⟨cmd, hcmd, htok, hid, _⟩ := lineCandidate_some hc
    have hl := h line hline
    unfold UnixProcessDetector.lineLacksTokenOrIdentity at hl
    rw [hcmd] at hl
    simp [htok, hid] at hl

/-- An entirely whitespace stdout produces no candidates. -/
theorem candidatesOf_trim_empty {stdout : String}
    (h : (trimList stdout.toList).isEmpty = true) :
    UnixProcessDetector.candidatesOf stdout = [] := by
  unfold UnixProcessDetector.candidatesOf UnixProcessDetector.linesOf
  rw [List.isEmpty_iff] at h
  rw [h]
  rfl

/-- The `candidates.find(...) || candidates[0]` selection on a nonempty
candidate list: it yields a member; a `ppid` match when one exists; the head
when none does. -/
theorem selectSpec (l : List UnixProcessDetector.UnixCandidate) (pid : Int)
    (hne : l ≠ []) :
    ∃ c, (l.find? (fun c => c.ppid = pid)).orElse (fun _ => l.head?) = some c ∧
      c ∈ l ∧
      ((∃ d ∈ l, d.ppid = pid) → c.ppid = pid) ∧
      ((∀ d ∈ l, d.ppid ≠ pid) → some c = l.head?) := by
  rcases hf : l.find? (fun c => c.ppid = pid) with _ | c
  · rcases l with _ | ⟨c0, cs⟩
    · exact absurd rfl hne
    · rw [hf]
      refine ⟨c0, rfl, List.mem_cons_self c0 cs, ?_, fun _ => rfl⟩
      rintro ⟨d, hd, hdp⟩
      have := List.find?_eq_none.mp hf d hd
      simp [hdp] at this
  · rw [hf]
    have hmem := List.mem_of_find?_eq_some hf
    have hp : c.ppid = pid := by simpa using List.find?_some hf
    exact ⟨c, rfl, hmem, fun _ => hp, fun hall => absurd hp (hall c hmem)⟩

/-- The selection only ever returns members of the candidate list. -/
theorem selectMem {l : List UnixProcessDetector.UnixCandidate} {pid : Int}
    {c : UnixProcessDetector.UnixCandidate}
    (h : (l.find? (fun d => d.ppid = pid)).orElse (fun _ => l.head?) = some c) :
    c ∈ l := by
  rcases hf : l.find? (fun d => d.ppid = pid) with _ | d <;> rw [hf] at h
  · have h2 : l.head? = some c := h
    exact List.mem_of_mem_head? (by simp [h2])
  · have h2 : some d = some c := h
    cases h2
    exact List.mem_of_find?_eq_some hf

/-- C7: `parseProcessInfo` returns nothing when no line both carries a csrf
token and matches the application identity; when candidates exist it returns
a candidate — one whose parent pid equals the caller's pid whenever such a
candidate exists, else the first in OS-reported order — and every returned
record has a non-empty token. -/
theorem C7_parseProcessInfo (stdout : String) (currentPid : Int) :
    ((∀ line ∈ UnixProcessDetector.linesOf stdout,
        UnixProcessDetector.lineLacksTokenOrIdentity line = true) →
      UnixProcessDetector.parseProcessInfo stdout currentPid = none) ∧
    (UnixProcessDetector.candidatesOf stdout ≠ [] →
      ∃ c, UnixProcessDetector.parseProcessInfo stdout currentPid = some c ∧
        c ∈ UnixProcessDetector.candidatesOf stdout ∧
        ((∃ d ∈ UnixProcessDetector.candidatesOf stdout,
            d.ppid = currentPid) → c.ppid = currentPid) ∧
        ((∀ d ∈ UnixProcessDetector.candidatesOf stdout,
            d.ppid ≠ currentPid) →
          some c = (UnixProcessDetector.candidatesOf stdout).head?)) ∧
    (∀ c, UnixProcessDetector.parseProcessInfo stdout currentPid = some c →
      c.csrfToken ≠ "") := by
  refine ⟨?_, ?_, ?_⟩
  · intro h
    have hc := candidatesOf_eq_nil h
    by_cases he : (trimList stdout.toList).isEmpty = true
    · unfold UnixProcessDetector.parseProcessInfo
      rw [if_pos he]
    · unfold UnixProcessDetector.parseProcessInfo
      rw [if_neg he, hc]
      rfl
  · intro hne
    have hne2 : ¬ (trimList stdout.toList).isEmpty = true := by
      intro he
      exact hne (candidatesOf_trim_empty he)
    have hpp : UnixProcessDetector.parseProcessInfo stdout currentPid =
        ((UnixProcessDetector.candidatesOf stdout).find?
            (fun c => c.ppid = currentPid)).orElse
          (fun _ => (UnixProcessDetector.candidatesOf stdout).head?) := by
      unfold UnixProcessDetector.parseProcessInfo
      rw [if_neg hne2]
    obtain ⟨c, h1, h2, h3, h4⟩ :=
      selectSpec (UnixProcessDetector.candidatesOf stdout) currentPid hne
    exact ⟨c, by rw [hpp, h1], h2, h3, h4⟩
  · intro c hc
    have hmem : c ∈ UnixProcessDetector.candidatesOf stdout := by
      unfold UnixProcessDetector.parseProcessInfo at hc
      by_cases he : (trimList stdout.toList).isEmpty = true
      · rw [if_pos he] at hc
        exact absurd hc (by simp)
      · rw [if_neg he] at hc
        exact selectMem hc
    obtain ⟨line, hline, hcand⟩ := List.mem_filterMap.mp hmem
    obtain ⟨cmd, hc1, hc2, hc3, htoken⟩ := lineCandidate_some hcand
    exact htoken

/-- C7 witness: an output whose lines carry no csrf token parses to
nothing. -/
theorem C7_witness :
    UnixProcessDetector.parseProcessInfo
      "100 1 /usr/bin/emacs --daemon\n200 1 /opt/antigravity/helper --verbose" 7 = none :=
  (C7_parseProcessInfo
      "100 1 /usr/bin/emacs --daemon\n200 1 /opt/antigravity/helper --verbose" 7).1
    (by decide)

end AQM
